import Mathlib

/-!
Shallow embedding of the `anon-infer-proxy` repository (TypeScript) in Lean 4,
used to settle the claims C1..C10 about its specification.

Conventions of the embedding:
* JavaScript strings are modelled as `List Char` (sequences of Unicode code
  points; every string occurring in the claims is ASCII, where this agrees
  with JS UTF-16 code units).
* JavaScript numbers used as confidences are modelled as exact rationals `ℚ`
  (all comparisons appearing in the claims are far from float rounding
  boundaries).
* Asynchronous functions are modelled as pure functions; randomness
  (salts, mapping ids, current time) is passed in as explicit parameters.
* Fallible code returns `Except` / `Option`.
-/

set_option maxRecDepth 4000

namespace AnonProxy

/-- JS strings, modelled as lists of characters. -/
abbrev Str := List Char

/-- JS `s.substring(a, b)` for `a ≤ b` (half-open slice). -/
def sub (s : Str) (a b : Nat) : Str := (s.drop a).take (b - a)

/-- JS `s.toLowerCase()` (ASCII-faithful; claims only use ASCII data). -/
def toLowerStr (s : Str) : Str := s.map Char.toLower

/-- Substring containment: `needle` occurs contiguously in `hay`
(JS `hay.includes(needle)`). -/
def containsSub (hay needle : Str) : Bool :=
  (List.range (hay.length + 1)).any fun i => needle.isPrefixOf (hay.drop i)

/-! ### 32-bit arithmetic helpers for SHA-256 -/

/-- Truncate to a 32-bit word. -/
def w32 (n : Nat) : Nat := n % 4294967296

/-- Rotate a 32-bit word right by `k` bit positions. -/
def rotr (k x : Nat) : Nat := w32 ((x >>> k) ||| (x <<< (32 - k)))

def shaCh (x y z : Nat) : Nat := w32 ((x &&& y) ^^^ ((w32 (4294967295 - x)) &&& z))
def shaMaj (x y z : Nat) : Nat := w32 ((x &&& y) ^^^ (x &&& z) ^^^ (y &&& z))
def bigSigma0 (x : Nat) : Nat := (rotr 2 x) ^^^ (rotr 13 x) ^^^ (rotr 22 x)
def bigSigma1 (x : Nat) : Nat := (rotr 6 x) ^^^ (rotr 11 x) ^^^ (rotr 25 x)
def smallSigma0 (x : Nat) : Nat := (rotr 7 x) ^^^ (rotr 18 x) ^^^ (x >>> 3)
def smallSigma1 (x : Nat) : Nat := (rotr 17 x) ^^^ (rotr 19 x) ^^^ (x >>> 10)

/-- SHA-256 round constants (the standard K table, written in decimal). -/
def shaK : List Nat :=
  [1116352408, 1899447441, 3049323471, 3921009573, 961987163, 1508970993,
   2453635748, 2870763221, 3624381080, 310598401, 607225278, 1426881987,
   1925078388, 2162078206, 2614888103, 3248222580, 3835390401, 4022224774,
   264347078, 604807628, 770255983, 1249150122, 1555081692, 1996064986,
   2554220882, 2821834349, 2952996808, 3210313671, 3336571891, 3584528711,
   113926993, 338241895, 666307205, 773529912, 1294757372, 1396182291,
   1695183700, 1986661051, 2177026350, 2456956037, 2730485921, 2820302411,
   3259730800, 3345764771, 3516065817, 3600352804, 4094571909, 275423344,
   430227734, 506948616, 659060556, 883997877, 958139571, 1322822218,
   1537002063, 1747873779, 1955562222, 2024104815, 2227730452, 2361852424,
   2428436474, 2756734187, 3204031479, 3329325298]

/-- SHA-256 initial hash state (the standard H0 values, in decimal). -/
def shaH0 : List Nat :=
  [1779033703, 3144134277, 1013904242, 2773480762,
   1359893119, 2600822924, 528734635, 1541459225]

/-- Assemble big-endian 32-bit words from a byte list (4 bytes per word). -/
def bytesToWords : List Nat → List Nat
  | b0 :: b1 :: b2 :: b3 :: rest =>
      (b0 <<< 24 ||| b1 <<< 16 ||| b2 <<< 8 ||| b3) :: bytesToWords rest
  | _ => []

/-- Extend 16 schedule words to 64 (count counts remaining extensions). -/
def extendW : Nat → Array Nat → Array Nat
  | 0, a => a
  | n + 1, a =>
      let i := a.size
      let wn := w32 (smallSigma1 (a.getD (i - 2) 0) + a.getD (i - 7) 0 +
                     smallSigma0 (a.getD (i - 15) 0) + a.getD (i - 16) 0)
      extendW n (a.push wn)

/-- One SHA-256 compression round per (k, w) pair. -/
def shaRounds : List (Nat × Nat) →
    Nat × Nat × Nat × Nat × Nat × Nat × Nat × Nat →
    Nat × Nat × Nat × Nat × Nat × Nat × Nat × Nat
  | [], st => st
  | (ki, wi) :: rest, (a, b, c, d, e, f, g, h) =>
      let t1 := w32 (h + bigSigma1 e + shaCh e f g + ki + wi)
      let t2 := w32 (bigSigma0 a + shaMaj a b c)
      shaRounds rest (w32 (t1 + t2), a, b, c, w32 (d + t1), e, f, g)

/-- Compress one 64-byte block into the running hash state. -/
def shaCompress (hs : List Nat) (block : List Nat) : List Nat :=
  let ws := extendW 48 (bytesToWords block).toArray
  match hs with
  | [h0, h1, h2, h3, h4, h5, h6, h7] =>
      let (a, b, c, d, e, f, g, h) :=
        shaRounds (shaK.zip ws.toList) (h0, h1, h2, h3, h4, h5, h6, h7)
      [w32 (h0 + a), w32 (h1 + b), w32 (h2 + c), w32 (h3 + d),
       w32 (h4 + e), w32 (h5 + f), w32 (h6 + g), w32 (h7 + h)]
  | other => other

/-- Split a byte list into 64-byte blocks (fueled structural recursion so that
the definition evaluates inside the kernel). -/
def toBlocksF : Nat → List Nat → List (List Nat)
  | 0, _ => []
  | _, [] => []
  | fuel + 1, l => l.take 64 :: toBlocksF fuel (l.drop 64)

/-- Big-endian bytes of `n`, `k` bytes wide. -/
def beBytes : Nat → Nat → List Nat
  | 0, _ => []
  | k + 1, n => (n >>> (8 * k)) % 256 :: beBytes k n

/-- SHA-256 padding of a message given as bytes. -/
def shaPad (msg : List Nat) : List Nat :=
  let zeros := (64 + 56 - ((msg.length + 1) % 64)) % 64
  msg ++ [0x80] ++ List.replicate zeros 0 ++ beBytes 8 (8 * msg.length)

/-- SHA-256 of a byte list, returning the 32 digest bytes. -/
def sha256 (msg : List Nat) : List Nat :=
  let final := (toBlocksF (msg.length + 9) (shaPad msg)).foldl shaCompress shaH0
  final.foldr (fun wi acc => beBytes 4 wi ++ acc) []

/-- UTF-8 encoding of one character (Node hashes strings as UTF-8). -/
def utf8Char (c : Char) : List Nat :=
  let n := c.toNat
  if n < 0x80 then [n]
  else if n < 0x800 then [0xc0 ||| (n >>> 6), 0x80 ||| (n &&& 0x3f)]
  else if n < 0x10000 then
    [0xe0 ||| (n >>> 12), 0x80 ||| ((n >>> 6) &&& 0x3f), 0x80 ||| (n &&& 0x3f)]
  else
    [0xf0 ||| (n >>> 18), 0x80 ||| ((n >>> 12) &&& 0x3f),
     0x80 ||| ((n >>> 6) &&& 0x3f), 0x80 ||| (n &&& 0x3f)]

/-- UTF-8 encoding of a string. -/
def utf8Encode (s : Str) : List Nat := (s.map utf8Char).foldr (· ++ ·) []

/-- The standard Base64 alphabet. -/
def b64Alphabet : Str :=
  "ABCDEFGHIJKLMNOPQRSTUVWXYZabcdefghijklmnopqrstuvwxyz0123456789+/".data

def b64Char (n : Nat) : Char := b64Alphabet.getD n 'A'

/-- Base64 encoding with padding, as produced by Node `digest("base64")`. -/
def base64 : List Nat → Str
  | [] => []
  | [b0] => [b64Char (b0 >>> 2), b64Char ((b0 &&& 3) <<< 4), '=', '=']
  | [b0, b1] =>
      [b64Char (b0 >>> 2), b64Char (((b0 &&& 3) <<< 4) ||| (b1 >>> 4)),
       b64Char ((b1 &&& 15) <<< 2), '=']
  | b0 :: b1 :: b2 :: rest =>
      b64Char (b0 >>> 2) :: b64Char (((b0 &&& 3) <<< 4) ||| (b1 >>> 4)) ::
      b64Char (((b1 &&& 15) <<< 2) ||| (b2 >>> 6)) :: b64Char (b2 &&& 63) ::
      base64 rest

/-! ### CryptoUtils (src/utils/crypto.ts) -/

/-- `CryptoUtils.hashWithSalt`: Base64(SHA-256(input + salt)). -/
def hashWithSalt (input salt : Str) : Str :=
  base64 (sha256 (utf8Encode (input ++ salt)))

/-- HMAC-SHA-256 over bytes (Node `createHmac('sha256', secret)`). -/
def hmacSha256 (key msg : List Nat) : List Nat :=
  let k0 := if key.length > 64 then sha256 key else key
  let kp := k0 ++ List.replicate (64 - k0.length) 0
  sha256 ((kp.map (fun b => b ^^^ 0x5c)) ++ sha256 ((kp.map (fun b => b ^^^ 0x36)) ++ msg))

/-- `CryptoUtils.createHmac`: Base64 HMAC-SHA-256 signature of `data`. -/
def createHmac (data secret : Str) : Str :=
  base64 (hmacSha256 (utf8Encode secret) (utf8Encode data))

/-- The loop of `CryptoUtils.constantTimeCompare`, instrumented with the
number of iterations executed (second component); the loop accumulates the
bitwise OR of the XORs of the character codes and never exits early. -/
def ctcLoop : List (Char × Char) → Nat → Nat × Nat
  | [], r => (r, 0)
  | p :: ps, r =>
      let q := ctcLoop ps (r ||| (p.1.toNat ^^^ p.2.toNat))
      (q.1, q.2 + 1)

/-- `CryptoUtils.constantTimeCompare`: length check, then the OR-of-XORs loop
over every index. -/
def constantTimeCompare (a b : Str) : Bool :=
  if a.length ≠ b.length then false
  else (ctcLoop (a.zip b) 0).1 == 0

/-- `CryptoUtils.verifyHmac`: recompute and compare in constant time. -/
def verifyHmac (data signature secret : Str) : Bool :=
  constantTimeCompare signature (createHmac data secret)

/-- JS character class `[^a-zA-Z0-9]` complement: ASCII alphanumeric. -/
def isAlnumChar (c : Char) : Bool :=
  ('a' ≤ c && c ≤ 'z') || ('A' ≤ c && c ≤ 'Z') || ('0' ≤ c && c ≤ '9')

/-- `CryptoUtils.generateProxyToken`: prefix ++ first 16 chars of the Base64
salted hash with all non-alphanumeric characters stripped. -/
def generateProxyToken (originalToken salt : Str) (pfx : Str := "anon_".data) : Str :=
  let hash := hashWithSalt originalToken salt
  let shortHash := (hash.take 16).filter isAlnumChar
  pfx ++ shortHash

/-- Checker for the spec's proxy-token format `^anon_[A-Za-z0-9]+$`. -/
def matchesAnonFormat (s : Str) : Bool :=
  ("anon_".data).isPrefixOf s &&
  (s.drop 5).length > 0 &&
  (s.drop 5).all isAlnumChar

/-! ### A small backtracking regex engine

`TokenDetector` runs JavaScript regular expressions.  The fragment of JS
regex syntax used by `TOKEN_PATTERNS` (character classes, alternation,
greedy `*`/`+`/`?`/`{n}`/`{n,}`/`{n,M}` quantifiers, one capturing group,
word boundaries `\b` and negative lookahead) is embedded as an AST, with a
standard backtracking matcher producing results in JS priority order
(leftmost, alternatives left first, greedy quantifiers longest first). -/

/-- Regex AST. -/
inductive RE where
  | eps
  | cls (p : Char → Bool)
  | seq (r s : RE)
  | alt (r s : RE)
  | opt (r : RE)
  | star (r : RE)
  | group (r : RE)
  | wb
  | nla (r : RE)

/-- Capture state: the span of capturing group 1, if it has matched. -/
abbrev Cap := Option (Nat × Nat)

/-- Greedy repetition loop: explore continuing with one more (non-empty)
iteration of the body first, then stopping.  `fuel` bounds the number of
iterations; since each explored iteration consumes at least one character,
`chars.length + 1` fuel is always enough. -/
def starLoop (f : Nat → Cap → List (Nat × Cap)) : Nat → Nat → Cap → List (Nat × Cap)
  | 0, pos, cap => [(pos, cap)]
  | fuel + 1, pos, cap =>
      (((f pos cap).filter (fun pc => pos < pc.1)).flatMap
        (fun pc => starLoop f fuel pc.1 pc.2)) ++ [(pos, cap)]

/-- All ways to match `re` in `chars` starting at `pos`, in JS backtracking
priority order, each with its end position and capture state. -/
def mrun (chars : List Char) : RE → Nat → Cap → List (Nat × Cap)
  | .eps, pos, cap => [(pos, cap)]
  | .cls p, pos, cap =>
      match chars.get? pos with
      | some c => if p c then [(pos + 1, cap)] else []
      | none => []
  | .seq r s, pos, cap =>
      (mrun chars r pos cap).flatMap fun pc => mrun chars s pc.1 pc.2
  | .alt r s, pos, cap => mrun chars r pos cap ++ mrun chars s pos cap
  | .opt r, pos, cap => mrun chars r pos cap ++ [(pos, cap)]
  | .star r, pos, cap =>
      starLoop (fun p c => mrun chars r p c) (chars.length + 1) pos cap
  | .group r, pos, cap =>
      (mrun chars r pos cap).map fun pc => (pc.1, some (pos, pc.1))
  | .wb, pos, cap =>
      let isW : Option Char → Bool := fun oc =>
        match oc with
        | some c => isAlnumChar c || c = '_'
        | none => false
      if isW (if pos = 0 then none else chars.get? (pos - 1)) ≠ isW (chars.get? pos)
      then [(pos, cap)] else []
  | .nla r, pos, cap =>
      if (mrun chars r pos cap).isEmpty then [(pos, cap)] else []

/-- One regex match as returned by JS `exec`: start index, end index, and
the span of capturing group 1 (if any). -/
structure RawMatch where
  index : Nat
  endIdx : Nat
  cap : Cap
deriving DecidableEq

/-- Find the first match at or after `pos` (JS `exec` scans positions left to
right and takes the first, highest-priority result). -/
def findFrom : Nat → RE → List Char → Nat → Option RawMatch
  | 0, _, _, _ => none
  | fuel + 1, re, chars, pos =>
      match mrun chars re pos none with
      | (e, c) :: _ => some ⟨pos, e, c⟩
      | [] => if chars.length ≤ pos then none else findFrom fuel re chars (pos + 1)

/-- All matches of a global (`g`-flag) regex, continuing each search at the
end of the previous match.  (JS loops forever on an empty match; like any
terminating model we advance by one character in that case, which is
unreachable for the shipped patterns since they all consume input.) -/
def findAllF : Nat → RE → List Char → Nat → List RawMatch
  | 0, _, _, _ => []
  | fuel + 1, re, chars, pos =>
      match findFrom (chars.length + 1) re chars pos with
      | none => []
      | some m => m :: findAllF fuel re chars (max m.endIdx (m.index + 1))

/-- All matches of `re` in `chars` (the `while exec` loop of the detector). -/
def findAll (re : RE) (chars : List Char) : List RawMatch :=
  findAllF (chars.length + 1) re chars 0

/-! ### Regex notation helpers and the TOKEN_PATTERNS catalog -/

/-- Sequence a list of regexes. -/
def reCat (l : List RE) : RE := l.foldr RE.seq RE.eps

/-- Case-insensitive literal (all shipped patterns carry the `i` flag). -/
def lit (s : Str) : RE := reCat (s.map fun c => RE.cls (fun x => x.toLower = c.toLower))

/-- Greedy `r+`. -/
def plus (r : RE) : RE := .seq r (.star r)

/-- Exactly `n` copies of `r` (`r{n}`). -/
def reN (n : Nat) (r : RE) : RE := reCat (List.replicate n r)

/-- Greedy `r{n,}`. -/
def atLeast (n : Nat) (r : RE) : RE := .seq (reN n r) (.star r)

/-- Greedy `r{0,2}` (used by `BASE64_TOKEN`'s `={0,2}`). -/
def upTo2 (r : RE) : RE := .opt (.seq r (.opt r))

/-- One character: `c` (case-insensitive, as under the `i` flag). -/
def chr (c : Char) : RE := .cls (fun x => x.toLower = c.toLower)

/-- JS `\s` whitespace class (ASCII part plus NBSP/BOM). -/
def jsSpace (c : Char) : Bool :=
  c = ' ' || c = '\t' || c = '\n' || c = '\r' ||
  c = '\x0b' || c = '\x0c' || c = ' ' || c = '﻿'

/-- Class `[0-9]`. -/
def digit : RE := .cls fun c => '0' ≤ c && c ≤ '9'

/-- Class `[a-zA-Z0-9_\-\.]` (key/token bodies). -/
def tokenBody : RE := .cls fun c => isAlnumChar c || c = '_' || c = '-' || c = '.'

/-- Class `["\s]`. -/
def quoteSpace : RE := .cls fun c => c = '"' || jsSpace c

/-- Class `[:=]`. -/
def colonEq : RE := .cls fun c => c = ':' || c = '='

/-- Class `[^\s"']`. -/
def notSpaceQuote : RE := .cls fun c => !(jsSpace c) && c ≠ '"' && c ≠ '\''

/-- Class `[a-zA-Z0-9_\-]` (JWT segments). -/
def jwtBody : RE := .cls fun c => isAlnumChar c || c = '_' || c = '-'

/-- Class `[0-9a-f]` under the `i` flag. -/
def hexDigit : RE := .cls fun c => ('0' ≤ c && c ≤ '9') || ('a' ≤ c.toLower && c.toLower ≤ 'f')

/-- Class `[-.\s]` (phone separators). -/
def phoneSep : RE := .cls fun c => c = '-' || c = '.' || jsSpace c

/-- The common tail `["\s]*[:=]["\s]*(body{min,})` of the key/value patterns. -/
def kvTail (body : RE) (min : Nat) : RE :=
  reCat [.star quoteSpace, colonEq, .star quoteSpace, .group (atLeast min body)]

/-- `API_KEY`: `(?:api[_-]?key|apikey|key)["\s]*[:=]["\s]*([a-zA-Z0-9_\-\.]{16,})`. -/
def reApiKey : RE :=
  .seq (.alt (reCat [lit "api".data, .opt (.cls fun c => c = '_' || c = '-'), lit "key".data])
             (.alt (lit "apikey".data) (lit "key".data)))
       (kvTail tokenBody 16)

/-- `ACCESS_TOKEN`: `(?:access[_-]?token|accesstoken|token)["\s]*[:=]["\s]*([a-zA-Z0-9_\-\.]{16,})`. -/
def reAccessToken : RE :=
  .seq (.alt (reCat [lit "access".data, .opt (.cls fun c => c = '_' || c = '-'), lit "token".data])
             (.alt (lit "accesstoken".data) (lit "token".data)))
       (kvTail tokenBody 16)

/-- `SECRET_KEY`: `(?:secret[_-]?key|secretkey|secret)["\s]*[:=]["\s]*([a-zA-Z0-9_\-\.]{16,})`. -/
def reSecretKey : RE :=
  .seq (.alt (reCat [lit "secret".data, .opt (.cls fun c => c = '_' || c = '-'), lit "key".data])
             (.alt (lit "secretkey".data) (lit "secret".data)))
       (kvTail tokenBody 16)

/-- `BEARER_TOKEN`: `Bearer\s+([a-zA-Z0-9_\-\.]{16,})`. -/
def reBearerToken : RE :=
  reCat [lit "bearer".data, plus (.cls jsSpace), .group (atLeast 16 tokenBody)]

/-- `JWT_TOKEN`: `eyJ[a-zA-Z0-9_\-]+\.eyJ[a-zA-Z0-9_\-]+\.[a-zA-Z0-9_\-]+`. -/
def reJwtToken : RE :=
  reCat [lit "eyJ".data, plus jwtBody, chr '.', lit "eyJ".data, plus jwtBody,
         chr '.', plus jwtBody]

/-- `PASSWORD`: `(?:password|passwd|pwd)["\s]*[:=]["\s]*([^\s"']{8,})`. -/
def rePassword : RE :=
  .seq (.alt (lit "password".data) (.alt (lit "passwd".data) (lit "pwd".data)))
       (kvTail notSpaceQuote 8)

/-- `DATABASE_URL`: `(?:database[_-]?url|db[_-]?url)["\s]*[:=]["\s]*([^\s"']{10,})`. -/
def reDatabaseUrl : RE :=
  .seq (.alt (reCat [lit "database".data, .opt (.cls fun c => c = '_' || c = '-'), lit "url".data])
             (reCat [lit "db".data, .opt (.cls fun c => c = '_' || c = '-'), lit "url".data]))
       (kvTail notSpaceQuote 10)

/-- `AWS_ACCESS_KEY`: `AKIA[0-9A-Z]{16}` (under the `i` flag). -/
def reAwsAccessKey : RE :=
  .seq (lit "AKIA".data)
       (reN 16 (.cls fun c => ('0' ≤ c && c ≤ '9') || ('a' ≤ c.toLower && c.toLower ≤ 'z')))

/-- `AWS_SECRET_KEY`: `[a-zA-Z0-9\/+=]{40}`. -/
def reAwsSecretKey : RE :=
  reN 40 (.cls fun c => isAlnumChar c || c = '/' || c = '+' || c = '=')

/-- `AZURE_CLIENT_SECRET`: `[a-zA-Z0-9~\-._]{34,}`. -/
def reAzureClientSecret : RE :=
  atLeast 34 (.cls fun c => isAlnumChar c || c = '~' || c = '-' || c = '.' || c = '_')

/-- `EMAIL`: `\b[A-Za-z0-9._%+-]+@[A-Za-z0-9.-]+\.[A-Z|a-z]{2,}\b`. -/
def reEmail : RE :=
  reCat [.wb,
         plus (.cls fun c => isAlnumChar c || c = '.' || c = '_' || c = '%' || c = '+' || c = '-'),
         .cls (fun c => c = '@'),
         plus (.cls fun c => isAlnumChar c || c = '.' || c = '-'),
         .cls (fun c => c = '.'),
         atLeast 2 (.cls fun c => ('a' ≤ c.toLower && c.toLower ≤ 'z') || c = '|'),
         .wb]

/-- `PHONE`: `(?:\+?1[-.\s]?)?\(?[0-9]{3}\)?[-.\s]?[0-9]{3}[-.\s]?[0-9]{4}`. -/
def rePhone : RE :=
  reCat [.opt (reCat [.opt (.cls fun c => c = '+'), .cls (fun c => c = '1'), .opt phoneSep]),
         .opt (.cls fun c => c = '('), reN 3 digit, .opt (.cls fun c => c = ')'),
         .opt phoneSep, reN 3 digit, .opt phoneSep, reN 4 digit]

/-- `SSN`: `(?!000|666)[0-8][0-9]{2}-(?!00)[0-9]{2}-(?!0000)[0-9]{4}`. -/
def reSsn : RE :=
  reCat [.nla (.alt (lit "000".data) (lit "666".data)),
         .cls (fun c => '0' ≤ c && c ≤ '8'), reN 2 digit, chr '-',
         .nla (lit "00".data), reN 2 digit, chr '-',
         .nla (lit "0000".data), reN 4 digit]

/-- `CREDIT_CARD`: Visa / MasterCard / Amex / Diners / Discover numbers. -/
def reCreditCard : RE :=
  .alt (reCat [chr '4', reN 12 digit, .opt (reN 3 digit)])
 (.alt (reCat [chr '5', .cls (fun c => '1' ≤ c && c ≤ '5'), reN 14 digit])
 (.alt (reCat [chr '3', .cls (fun c => c = '4' || c = '7'), reN 13 digit])
 (.alt (reCat [chr '3', reN 13 digit])
       (reCat [chr '6', .alt (lit "011".data) (reCat [chr '5', reN 2 digit]), reN 12 digit]))))

/-- One decimal octet `(?:25[0-5]|2[0-4][0-9]|[01]?[0-9][0-9]?)`. -/
def reOctet : RE :=
  .alt (reCat [lit "25".data, .cls fun c => '0' ≤ c && c ≤ '5'])
 (.alt (reCat [chr '2', .cls (fun c => '0' ≤ c && c ≤ '4'), digit])
       (reCat [.opt (.cls fun c => c = '0' || c = '1'), digit, .opt digit]))

/-- `PRIVATE_IP`: the `10.`, `172.16-31.` and `192.168.` private ranges. -/
def rePrivateIp : RE :=
  .alt (reCat [lit "10.".data, reOctet, chr '.', reOctet, chr '.', reOctet])
 (.alt (reCat [lit "172.".data,
               .alt (reCat [chr '1', .cls fun c => '6' ≤ c && c ≤ '9'])
                    (.alt (reCat [chr '2', digit])
                          (reCat [chr '3', .cls fun c => c = '0' || c = '1'])),
               chr '.', reOctet, chr '.', reOctet])
       (reCat [lit "192.168.".data, reOctet, chr '.', reOctet]))

/-- `UUID`: `[0-9a-f]{8}-[0-9a-f]{4}-[0-9a-f]{4}-[0-9a-f]{4}-[0-9a-f]{12}`. -/
def reUuid : RE :=
  reCat [reN 8 hexDigit, chr '-', reN 4 hexDigit, chr '-', reN 4 hexDigit,
         chr '-', reN 4 hexDigit, chr '-', reN 12 hexDigit]

/-- `HEX_TOKEN`: `[a-fA-F0-9]{32,}`. -/
def reHexToken : RE := atLeast 32 hexDigit

/-- `BASE64_TOKEN`: `[A-Za-z0-9+/]{20,}={0,2}`. -/
def reBase64Token : RE :=
  .seq (atLeast 20 (.cls fun c => isAlnumChar c || c = '+' || c = '/'))
       (upTo2 (.cls fun c => c = '='))

/-- The `TOKEN_PATTERNS` catalog, keyed by pattern name. -/
def TOKEN_PATTERNS : List (Str × RE) :=
  [("API_KEY".data, reApiKey), ("ACCESS_TOKEN".data, reAccessToken),
   ("SECRET_KEY".data, reSecretKey), ("BEARER_TOKEN".data, reBearerToken),
   ("JWT_TOKEN".data, reJwtToken), ("PASSWORD".data, rePassword),
   ("DATABASE_URL".data, reDatabaseUrl), ("AWS_ACCESS_KEY".data, reAwsAccessKey),
   ("AWS_SECRET_KEY".data, reAwsSecretKey), ("AZURE_CLIENT_SECRET".data, reAzureClientSecret),
   ("EMAIL".data, reEmail), ("PHONE".data, rePhone), ("SSN".data, reSsn),
   ("CREDIT_CARD".data, reCreditCard), ("PRIVATE_IP".data, rePrivateIp),
   ("UUID".data, reUuid), ("HEX_TOKEN".data, reHexToken),
   ("BASE64_TOKEN".data, reBase64Token)]

/-! ### TokenDetector (src/utils/tokenDetector.ts) -/

/-- `DetectedToken`: value, pattern type, half-open span, confidence.
Confidences are exact rationals represented in hundredths (an `Int` equal to
100 times the JS value): every base weight and adjustment in the source is a
multiple of 0.01, so this representation is exact and order-faithful. -/
structure DetectedToken where
  value : Str
  type : Str
  startIndex : Nat
  endIndex : Nat
  confidence : Int
deriving DecidableEq

/-- `TokenDetectionConfig`: pattern names, minimum length, custom patterns,
exclusions (case-insensitive) and case sensitivity. -/
structure TokenDetectionConfig where
  patterns : List Str
  minLength : Nat
  customPatterns : List RE
  exclusions : List Str
  caseSensitive : Bool

/-- `DEFAULT_DETECTION_CONFIG`. -/
def DEFAULT_DETECTION_CONFIG : TokenDetectionConfig :=
  { patterns := ["API_KEY".data, "ACCESS_TOKEN".data, "SECRET_KEY".data,
                 "BEARER_TOKEN".data, "JWT_TOKEN".data, "PASSWORD".data,
                 "EMAIL".data, "PHONE".data, "PRIVATE_IP".data, "UUID".data],
    minLength := 8,
    customPatterns := [],
    exclusions := ["localhost".data, "127.0.0.1".data, "example.com".data,
                   "test@example.com".data],
    caseSensitive := false }

/-- Product of `count(c) ^ count(c)` over the distinct characters of `s`;
`entPow` and the powers of two below decide the exact comparisons
`entropy > k` and `entropy < k`, since the Shannon entropy of `s` equals
`log2 (n^n / entPow s)` with `n = s.length`. -/
def entPow (s : Str) : Nat :=
  s.dedup.foldl (fun acc c => acc * (s.count c) ^ (s.count c)) 1

/-- Exact decision of `calculateEntropy s > k` (real-valued Shannon entropy;
the JS code computes it in floating point, which agrees on all inputs the
claims touch). -/
def entropyGt (s : Str) (k : Nat) : Bool :=
  s.length ^ s.length > 2 ^ (k * s.length) * entPow s

/-- Exact decision of `calculateEntropy s < k` (`0 < k` when `s` is empty,
since the JS loop yields entropy `0` there). -/
def entropyLt (s : Str) (k : Nat) : Bool :=
  if s.length = 0 then decide (0 < k)
  else s.length ^ s.length < 2 ^ (k * s.length) * entPow s

/-- The `baseConfidence` table of `calculateConfidence`. -/
def baseConfidence : List (Str × Int) :=
  [("JWT_TOKEN".data, 95), ("AWS_ACCESS_KEY".data, 95),
   ("BEARER_TOKEN".data, 90), ("API_KEY".data, 85), ("SECRET_KEY".data, 85),
   ("EMAIL".data, 90), ("UUID".data, 90), ("CREDIT_CARD".data, 95),
   ("PHONE".data, 80), ("PRIVATE_IP".data, 80), ("PASSWORD".data, 70),
   ("HEX_TOKEN".data, 60), ("BASE64_TOKEN".data, 60)]

/-- JS `Math.min`. -/
def jsMin (a b : Int) : Int := if a ≤ b then a else b

/-- JS `Math.max`. -/
def jsMax (a b : Int) : Int := if a ≤ b then b else a

/-- `TokenDetector.calculateConfidence`: base weight by pattern type, length
adjustment, entropy adjustment, clamped to [0, 1] ([0, 100] in hundredths). -/
def calculateConfidence (patternType : Str) (value : Str) : Int :=
  let base : Int := ((baseConfidence.lookup patternType).getD 50)
  let c1 : Int :=
    if value.length > 50 then base + 10
    else if value.length < 16 then base - 10
    else base
  let c2 : Int :=
    if entropyGt value 4 then c1 + 10
    else if entropyLt value 2 then c1 - 20
    else c1
  jsMax 0 (jsMin 100 c2)

/-- The overlap test of `deduplicateTokens` (`token` against an `existing`
accepted token): contained start, contained end, or containment. -/
def overlapB (token existing : DetectedToken) : Bool :=
  (existing.startIndex ≤ token.startIndex && token.startIndex < existing.endIndex) ||
  (existing.startIndex < token.endIndex && token.endIndex ≤ existing.endIndex) ||
  (token.startIndex ≤ existing.startIndex && existing.endIndex ≤ token.endIndex)

/-- One step of the deduplication walk: append if no overlap with the result
so far, otherwise replace the first overlapping accepted token when the new
token has strictly higher confidence. -/
def dedupStep (result : List DetectedToken) (token : DetectedToken) : List DetectedToken :=
  if result.any (overlapB token) then
    match result.findIdx? (fun e => overlapB token e) with
    | some i =>
        if token.confidence > (result.getD i token).confidence
        then result.set i token else result
    | none => result
  else result ++ [token]

/-- `TokenDetector.deduplicateTokens`: sort by start index (stably, like JS
`Array.sort`), then resolve overlaps greedily. -/
def deduplicateTokens (tokens : List DetectedToken) : List DetectedToken :=
  (tokens.insertionSort (fun a b => a.startIndex ≤ b.startIndex)).foldl dedupStep []

/-- Build the detected token for one raw regex match of a configured pattern:
`value = match[1] || match[0]` (the processed text), the min-length and
exclusion filters, the confidence, and the pushed token whose value re-reads
the original text at `[match.index, match.index + value.length)` when the
detector is case-insensitive — exactly as the source does. -/
def tokenOfMatch (cfg : TokenDetectionConfig) (text processed : Str)
    (name : Str) (m : RawMatch) : Option DetectedToken :=
  let value : Str :=
    match m.cap with
    | some (s, e) => if s < e then sub processed s e else sub processed m.index m.endIdx
    | none => sub processed m.index m.endIdx
  if value.length < cfg.minLength then none
  else if cfg.exclusions.contains (toLowerStr value) then none
  else
    some { value := if cfg.caseSensitive then value
                    else sub text m.index (m.index + value.length),
           type := name,
           startIndex := m.index,
           endIndex := m.index + value.length,
           confidence := calculateConfidence name value }

/-- The candidate for one raw match of a custom pattern: whole match, type
`CUSTOM`, fixed confidence 0.7. -/
def tokenOfCustomMatch (cfg : TokenDetectionConfig) (text processed : Str)
    (m : RawMatch) : Option DetectedToken :=
  let value : Str := sub processed m.index m.endIdx
  if cfg.minLength ≤ value.length then
    some { value := if cfg.caseSensitive then value
                    else sub text m.index (m.index + value.length),
           type := "CUSTOM".data,
           startIndex := m.index,
           endIndex := m.index + value.length,
           confidence := 70 }
  else none

/-- All candidates accumulated by `detectTokens` before deduplication:
configured catalog patterns in order (unknown names skipped), then custom
patterns. -/
def detectCandidates (cfg : TokenDetectionConfig) (text : Str) : List DetectedToken :=
  let processed := if cfg.caseSensitive then text else toLowerStr text
  (cfg.patterns.flatMap fun name =>
    match TOKEN_PATTERNS.lookup name with
    | none => []
    | some re => (findAll re processed).filterMap (tokenOfMatch cfg text processed name)) ++
  (cfg.customPatterns.flatMap fun re =>
    (findAll re processed).filterMap (tokenOfCustomMatch cfg text processed))

/-- `TokenDetector.detectTokens`: candidates, then overlap resolution. -/
def detectTokens (cfg : TokenDetectionConfig) (text : Str) : List DetectedToken :=
  deduplicateTokens (detectCandidates cfg text)

/-! ### Core types (src/core/types.ts) -/

/-- `MappingData`: id, insertion-ordered proxy→original map (a JS `Map` is
modelled as an association list in insertion order), creation timestamp in
epoch milliseconds, optional signature, strategy tag. -/
structure MappingData where
  id : Str
  mappings : List (Str × Str)
  createdAt : Int
  signature : Option Str
  strategy : Str
deriving DecidableEq

/-- JS `Map.set`: update the value in place if the key exists (keeping its
insertion position), otherwise append. -/
def jsMapSet (m : List (Str × Str)) (k v : Str) : List (Str × Str) :=
  if m.any (fun p => p.1 = k) then m.map (fun p => if p.1 = k then (k, v) else p)
  else m ++ [(k, v)]

/-- The error taxonomy of the library. -/
inductive EngineError where
  | validation (msg : Str)
  | signatureErr (msg : Str)
  | storageErr (msg : Str)
deriving DecidableEq

/-- `AnonymizationResult`. -/
structure AnonymizationResult where
  anonPrompt : Str
  mapId : Str
  signature : Option Str
deriving DecidableEq

/-! ### MemoryStorage (src/storage/memoryStorage.ts) -/

/-- The mutable state of a `MemoryStorage` instance: the insertion-ordered
table plus the `maxSize` and `ttlMs` configuration. -/
structure MemoryStorageState where
  mappings : List (Str × MappingData)
  maxSize : Nat
  ttlMs : Int
deriving DecidableEq

/-- Association-list lookup (JS `Map.get`). -/
def msLookup (m : List (Str × MappingData)) (k : Str) : Option MappingData :=
  (m.find? (fun p => p.1 = k)).map (·.2)

/-- JS `Map.set` on the storage table. -/
def msSet (m : List (Str × MappingData)) (k : Str) (v : MappingData) :
    List (Str × MappingData) :=
  if m.any (fun p => p.1 = k) then m.map (fun p => if p.1 = k then (k, v) else p)
  else m ++ [(k, v)]

/-- JS `Map.delete`. -/
def msDelete (m : List (Str × MappingData)) (k : Str) : List (Str × MappingData) :=
  m.filter (fun p => p.1 ≠ k)

/-- `MemoryStorage.store` at time `now`: validate the id, evict the
oldest-inserted entry when at capacity and the id is new, then store the
data with `createdAt` stamped to `now`. -/
def msStore (st : MemoryStorageState) (now : Int) (mapId : Str)
    (mappingData : MappingData) : Except EngineError MemoryStorageState :=
  if mapId = [] then
    .error (.storageErr "Map ID must be a non-empty string".data)
  else
    let m1 :=
      if st.maxSize ≤ st.mappings.length && !(st.mappings.any (fun p => p.1 = mapId)) then
        match st.mappings with
        | [] => st.mappings
        | _ :: rest => rest
      else st.mappings
    .ok { st with mappings := msSet m1 mapId { mappingData with createdAt := now } }

/-- `MemoryStorage.retrieve` at time `now`: `none` for a missing id; for a
present entry, evict it eagerly and report `none` when `now - createdAt`
exceeds a positive TTL, else return it. -/
def msRetrieve (st : MemoryStorageState) (now : Int) (mapId : Str) :
    Except EngineError (Option MappingData × MemoryStorageState) :=
  if mapId = [] then
    .error (.storageErr "Map ID must be a non-empty string".data)
  else
    match msLookup st.mappings mapId with
    | none => .ok (none, st)
    | some md =>
        if 0 < st.ttlMs ∧ st.ttlMs < now - md.createdAt then
          .ok (none, { st with mappings := msDelete st.mappings mapId })
        else .ok (some md, st)

/-! ### AnonEngine (src/core/anonEngine.ts)

The engine's storage collaborator is modelled as an ideal associative store
(`List (Str × MappingData)` with `msSet`/lookup): this is the behaviour of
`MemoryStorage` whenever the entry involved has not been evicted or TTL
expired (those aspects are modelled separately above).  The strategy
collaborator is a function `Str → Str` from token to proxy. -/

/-- Engine-relevant configuration (`AnonProxyConfig`). -/
structure EngineConfig where
  enableSignatures : Bool
  signatureSecret : Str
  strategyTag : Str
deriving DecidableEq

/-- JSON string escaping as performed by `JSON.stringify` on strings. -/
def jsonEscapeChar (c : Char) : Str :=
  if c = '"' then ['\\', '"']
  else if c = '\\' then ['\\', '\\']
  else if c = '\x08' then ['\\', 'b']
  else if c = '\t' then ['\\', 't']
  else if c = '\n' then ['\\', 'n']
  else if c = '\x0c' then ['\\', 'f']
  else if c = '\r' then ['\\', 'r']
  else if c.toNat < 0x20 then
    ['\\', 'u', '0', '0', "0123456789abcdef".data.getD (c.toNat >>> 4) '0',
     "0123456789abcdef".data.getD (c.toNat &&& 15) '0']
  else [c]

/-- `JSON.stringify` of a string. -/
def jsonStr (s : Str) : Str := '"' :: (s.map jsonEscapeChar).foldr (· ++ ·) ['"']

/-- `JSON.stringify(Array.from(mappings.entries()))`: a JSON array of
two-element arrays, in insertion order. -/
def jsonEntries (m : List (Str × Str)) : Str :=
  '[' :: (List.intercalate [','] (m.map fun p => '[' :: jsonStr p.1 ++ ',' :: jsonStr p.2 ++ [']'])) ++ [']']

/-- The canonical payload `` `${mapId}:${JSON.stringify(Array.from(mappings.entries()))}` ``
signed at anonymize time and verified at deanonymize time. -/
def dataToSign (mapId : Str) (m : List (Str × Str)) : Str :=
  mapId ++ ':' :: jsonEntries m

/-- The token-processing loop of `AnonEngine.anonymize`: sort the detections
by descending start index (rightmost first, stably like JS `Array.sort`) and
for each one record `mapping[proxy] = value` and splice the proxy over the
span `[startIndex, endIndex)`.  Returns the mapping (in insertion order) and
the anonymized prompt. -/
def engineBuild (strategyFn : Str → Str) (detectedTokens : List DetectedToken)
    (prompt : Str) : List (Str × Str) × Str :=
  (detectedTokens.insertionSort (fun a b => b.startIndex ≤ a.startIndex)).foldl
    (fun acc token =>
      (jsMapSet acc.1 (strategyFn token.value) token.value,
       acc.2.take token.startIndex ++ strategyFn token.value ++ acc.2.drop token.endIndex))
    ([], prompt)

/-- `AnonEngine.anonymize`.  `detectCfg` is the detector configuration
(`new TokenDetector()` uses the default), `strategyFn` the strategy's
`anonymize`, `newMapId` the id produced by `CryptoUtils.generateId()`, `now`
the current time.  Returns the result together with the updated storage. -/
def engineAnonymize (cfg : EngineConfig) (detectCfg : TokenDetectionConfig)
    (strategyFn : Str → Str) (storage : List (Str × MappingData))
    (newMapId : Str) (now : Int) (prompt : Str) :
    Except EngineError (AnonymizationResult × List (Str × MappingData)) :=
  if prompt = [] then
    .error (.validation "Prompt must be a non-empty string".data)
  else
    let detectedTokens := detectTokens detectCfg prompt
    if detectedTokens = [] then
      let emptyMapping : MappingData :=
        { id := newMapId, mappings := [], createdAt := now,
          signature := none, strategy := cfg.strategyTag }
      .ok ({ anonPrompt := prompt, mapId := newMapId,
             signature := if cfg.enableSignatures then
                 some (createHmac (newMapId ++ ':' :: prompt) cfg.signatureSecret)
               else none },
           msSet storage newMapId emptyMapping)
    else
      let result := engineBuild strategyFn detectedTokens prompt
      let signature := if cfg.enableSignatures then
          some (createHmac (dataToSign newMapId result.1) cfg.signatureSecret)
        else none
      let mappingData : MappingData :=
        { id := newMapId, mappings := result.1, createdAt := now,
          signature := signature, strategy := cfg.strategyTag }
      .ok ({ anonPrompt := result.2, mapId := newMapId, signature := signature },
           msSet storage newMapId mappingData)

/-- Global literal replacement: `output.replace(new RegExp(escapeRegExp(p), 'g'), o)`
(`escapeRegExp` makes the proxy a literal pattern, so this is plain
non-overlapping left-to-right substring replacement). -/
def replaceAllF : Nat → Str → Str → Str → Str
  | 0, s, _, _ => s
  | fuel + 1, s, needle, repl =>
      if needle ≠ [] && needle.isPrefixOf s then
        repl ++ replaceAllF fuel (s.drop needle.length) needle repl
      else
        match s with
        | [] => []
        | c :: rest => c :: replaceAllF fuel rest needle repl

def replaceAll (s needle repl : Str) : Str := replaceAllF s.length s needle repl

/-- `AnonEngine.deanonymize`: validate inputs, retrieve the mapping, run the
signature gate when signatures are enabled, then substitute every proxy by
its original. -/
def engineDeanonymize (cfg : EngineConfig) (storage : List (Str × MappingData))
    (output mapId : Str) (signature : Option Str) : Except EngineError Str :=
  if output = [] then
    .error (.validation "Output must be a non-empty string".data)
  else if mapId = [] then
    .error (.validation "Map ID must be a non-empty string".data)
  else
    match msLookup storage mapId with
    | none => .error (.validation ("Mapping not found for ID: ".data ++ mapId))
    | some mappingData =>
        let proceed : Except EngineError Str :=
          if mappingData.mappings = [] then .ok output
          else .ok (mappingData.mappings.foldl
            (fun out p => replaceAll out p.1 p.2) output)
        if cfg.enableSignatures then
          match signature with
          | none => .error (.signatureErr "Signature is required when signatures are enabled".data)
          | some sig =>
              match mappingData.signature with
              | none => .error (.signatureErr "Stored mapping does not have a signature".data)
              | some storedSig =>
                  if !constantTimeCompare sig storedSig then
                    .error (.signatureErr "Invalid signature - mapping may have been tampered with".data)
                  else if !verifyHmac (dataToSign mapId mappingData.mappings) storedSig
                            cfg.signatureSecret then
                    .error (.signatureErr "Mapping data signature verification failed".data)
                  else proceed
        else proceed

/-- Modelled from the spec: the file `src/strategies/hashSaltStrategy.ts` is
not among the provided sources (only its callers and the spec describe it).
Per spec §4.2, `HashSaltStrategy.anonymize` resolves the salt as
`config.customSalt` if set, else the per-instance generated salt, and
returns `CryptoUtils.generateProxyToken(token, salt)` (which is present in
the sources and embedded above). -/
def hashSaltAnonymize (customSalt : Option Str) (instanceSalt : Str) (token : Str) : Str :=
  generateProxyToken token (customSalt.getD instanceSalt)

/-! ## Remaining definitions: concrete fixtures and claim-specific objects -/

deriving instance DecidableEq for Except

/-- A sample mapping record used in the concrete storage scenarios. -/
def mdEx : MappingData :=
  { id := "x".data, mappings := [], createdAt := 12345,
    signature := none, strategy := "hash_salt".data }

/-- The concrete capacity-2 scenario of C7: store three distinct fresh ids,
then retrieve the first-inserted id. -/
def c7chain : Except EngineError (Option MappingData) :=
  (msStore ⟨[], 2, 0⟩ 0 "a".data mdEx).bind fun s1 =>
  (msStore s1 1 "b".data mdEx).bind fun s2 =>
  (msStore s2 2 "c".data mdEx).bind fun s3 =>
  (msRetrieve s3 3 "a".data).map Prod.fst

/-- The concrete TTL scenario of C8: TTL 100 ms, store at time 0 (with a
caller-supplied `createdAt` of 12345 that must be overwritten), retrieve at
time 150. -/
def c8chain : Except EngineError (Option MappingData × MemoryStorageState) :=
  (msStore ⟨[], 10, 100⟩ 0 "a".data mdEx).bind fun s1 =>
  msRetrieve s1 150 "a".data

def exSalt : Str := "testsalt".data

def exStrategy : Str → Str := hashSaltAnonymize none exSalt

def exText : Str := "API key: sk-1234567890abcdef, email: user@example.com".data

def c1cfg : EngineConfig := ⟨false, [], "hash_salt".data⟩

def c1run : Except EngineError (AnonymizationResult × List (Str × MappingData)) :=
  engineAnonymize c1cfg DEFAULT_DETECTION_CONFIG exStrategy [] "mapid01".data 0 exText

def c1res : AnonymizationResult :=
  match c1run with | .ok (r, _) => r | .error _ => ⟨[], [], none⟩

def c1storage : List (Str × MappingData) :=
  match c1run with | .ok (_, s) => s | .error _ => []

def c1proxyA : Str := exStrategy "key: sk-1234567890a".data

def c1proxyE : Str := exStrategy "user@example.com".data

def c2cfg : EngineConfig := ⟨true, "test-secret".data, "hash_salt".data⟩

def c2prompt : Str := "What is the weather like today?".data

def c2run : Except EngineError (AnonymizationResult × List (Str × MappingData)) :=
  engineAnonymize c2cfg DEFAULT_DETECTION_CONFIG exStrategy [] "mapid02".data 0 c2prompt

def c2res : AnonymizationResult :=
  match c2run with | .ok (r, _) => r | .error _ => ⟨[], [], none⟩

def c2storage : List (Str × MappingData) :=
  match c2run with | .ok (_, s) => s | .error _ => []

def c3run : Except EngineError (AnonymizationResult × List (Str × MappingData)) :=
  engineAnonymize c2cfg DEFAULT_DETECTION_CONFIG exStrategy [] "mapid03".data 0 exText

def c3res : AnonymizationResult :=
  match c3run with | .ok (r, _) => r | .error _ => ⟨[], [], none⟩

def c3storage : List (Str × MappingData) :=
  match c3run with | .ok (_, s) => s | .error _ => []

/-- Well-formed token: non-empty span. -/
def wfTok (t : DetectedToken) : Prop := t.startIndex < t.endIndex

/-- Real overlap of two half-open spans. -/
def tokOverlap (a b : DetectedToken) : Prop :=
  a.startIndex < b.endIndex ∧ b.startIndex < a.endIndex

/-- Invariant of the accepted-token list during deduplication: all tokens
well-formed, and consecutive spans separated (`end ≤ next start`). -/
def dedupInv (res : List DetectedToken) : Prop :=
  (∀ t ∈ res, wfTok t) ∧ res.Chain' (fun a b => a.endIndex ≤ b.startIndex)

instance : IsTotal DetectedToken (fun a b => a.startIndex ≤ b.startIndex) :=
  ⟨fun a b => Nat.le_total a.startIndex b.startIndex⟩

instance : IsTrans DetectedToken (fun a b => a.startIndex ≤ b.startIndex) :=
  ⟨fun _ _ _ hab hbc => Nat.le_trans hab hbc⟩

instance (a b : DetectedToken) : Decidable (tokOverlap a b) := by
  unfold tokOverlap
  exact instDecidableAnd

instance (t : DetectedToken) : Decidable (wfTok t) := by
  unfold wfTok
  exact Nat.decLt _ _

/-- The custom pattern `/zzzz\skey/` of the C4 counterexample. -/
def c4re : RE := reCat [lit "zzzz".data, RE.cls jsSpace, lit "key".data]

def c4cfg : TokenDetectionConfig :=
  { patterns := ["API_KEY".data, "UUID".data], minLength := 8,
    customPatterns := [c4re], exclusions := [], caseSensitive := false }

def c4text : Str := "zzzz key:aaaaaaaa11111111-2222-3333-4444-555555555555".data

def c4custTok : DetectedToken := ⟨"zzzz key".data, "CUSTOM".data, 0, 8, 70⟩

def c4apiTok : DetectedToken :=
  ⟨"key:aaaaaaaa11111111-2222-3333-4444-55555555".data, "API_KEY".data, 5, 49, 85⟩

/-! ## Lemmas and claim theorems -/

theorem lorZeroIff (a b : Nat) : a ||| b = 0 ↔ a = 0 ∧ b = 0 := by
  constructor
  · intro h
    constructor
    · by_contra ha
      obtain ⟨i, hi⟩ := Nat.exists_most_significant_bit ha
      have h2 : (a ||| b).testBit i = true := by rw [Nat.testBit_lor, hi.1]; rfl
      rw [h] at h2
      simp [Nat.zero_testBit] at h2
    · by_contra hb
      obtain ⟨i, hi⟩ := Nat.exists_most_significant_bit hb
      have h2 : (a ||| b).testBit i = true := by rw [Nat.testBit_lor, hi.1]; simp
      rw [h] at h2
      simp [Nat.zero_testBit] at h2
  · rintro ⟨rfl, rfl⟩
    rfl

theorem charToNat_inj {c d : Char} (h : c.toNat = d.toNat) : c = d := by
  have h1 := Char.ofNat_toNat c
  have h2 := Char.ofNat_toNat d
  rw [← h1, ← h2, h]

theorem ctcLoop_fst_eq_zero (l : List (Char × Char)) (r : Nat) :
    (ctcLoop l r).1 = 0 ↔ r = 0 ∧ ∀ p ∈ l, p.1 = p.2 := by
  induction l generalizing r with
  | nil => simp [ctcLoop]
  | cons p ps ih =>
      simp only [ctcLoop, ih, List.mem_cons, lorZeroIff]
      constructor
      · rintro ⟨⟨hr, hx⟩, hrest⟩
        refine ⟨hr, ?_⟩
        rintro q (rfl | hq)
        · exact charToNat_inj (Nat.xor_eq_zero.mp hx)
        · exact hrest q hq
      · rintro ⟨hr, hall⟩
        refine ⟨⟨hr, Nat.xor_eq_zero.mpr ?_⟩, fun q hq => hall q (Or.inr hq)⟩
        exact congrArg Char.toNat (hall p (Or.inl rfl))

theorem ctcLoop_snd (l : List (Char × Char)) (r : Nat) : (ctcLoop l r).2 = l.length := by
  induction l generalizing r with
  | nil => rfl
  | cons p ps ih => simp [ctcLoop, ih]

theorem zip_fst_eq_snd_iff (a : Str) : ∀ b : Str, a.length = b.length →
    ((∀ p ∈ a.zip b, p.1 = p.2) ↔ a = b) := by
  induction a with
  | nil =>
      intro b hb
      cases b with
      | nil => simp
      | cons x xs => simp at hb
  | cons x xs ih =>
      intro b hb
      cases b with
      | nil => simp at hb
      | cons y ys =>
          simp only [List.length_cons, Nat.succ.injEq] at hb
          simp only [List.zip_cons_cons, List.mem_cons, List.cons.injEq]
          constructor
          · intro h
            refine ⟨h (x, y) (Or.inl rfl), (ih ys hb).mp ?_⟩
            intro p hp
            exact h p (Or.inr hp)
          · rintro ⟨hxy, hxys⟩
            subst hxy
            rintro p (rfl | hp)
            · rfl
            · exact ((ih ys hb).mpr hxys) p hp

/-- Correctness of `constantTimeCompare`: true exactly on equal strings. -/
theorem constantTimeCompare_eq_true_iff (a b : Str) :
    constantTimeCompare a b = true ↔ a = b := by
  unfold constantTimeCompare
  by_cases h : a.length = b.length
  · simp only [h, ne_eq, not_true_eq_false, if_false, beq_iff_eq]
    rw [ctcLoop_fst_eq_zero]
    simp only [true_and]
    exact zip_fst_eq_snd_iff a b h
  · simp only [ne_eq, h, not_false_eq_true, if_true, Bool.false_eq_true, false_iff]
    intro hab
    exact h (congrArg List.length hab)

theorem constantTimeCompare_self (a : Str) : constantTimeCompare a a = true :=
  (constantTimeCompare_eq_true_iff a a).mpr rfl

theorem verifyHmac_createHmac (data secret : Str) :
    verifyHmac data (createHmac data secret) secret = true :=
  constantTimeCompare_self _

/-- C9: `constantTimeCompare(a, b)` returns true exactly when `a = b` (false
for unequal strings of equal or unequal length, true for equal strings,
including empty ones), and for equal-length inputs the loop performs one
iteration per character position, i.e. it scans the full length rather than
stopping at the first differing byte. -/
theorem c9_constant_time_compare (a b : Str) :
    (constantTimeCompare a b = true ↔ a = b) ∧
    (a.length = b.length → (ctcLoop (a.zip b) 0).2 = a.length) := by
  refine ⟨constantTimeCompare_eq_true_iff a b, fun h => ?_⟩
  rw [ctcLoop_snd, List.length_zip, h, Nat.min_self]

/-- C9 witness: the theorem evaluated at concrete equal strings. -/
theorem c9_constant_time_compare_witness :
    (constantTimeCompare "abc".data "abc".data = true) ∧
    (ctcLoop ("abc".data.zip "abc".data) 0).2 = ("abc".data).length :=
  ⟨(c9_constant_time_compare "abc".data "abc".data).1.mpr rfl,
   (c9_constant_time_compare "abc".data "abc".data).2 rfl⟩

/-- C6: Hash+Salt proxy generation is a pure function of (token, salt): two
calls with the same inputs give the identical proxy; the proxy equals
`anon_` followed by the first 16 characters of the Base64 SHA-256 hash of
`token ++ salt` with non-alphanumeric characters stripped from that slice;
and (whenever that stripped slice is non-empty, which the spec's regex
`^anon_[A-Za-z0-9]+$` presupposes) the result matches the format. -/
theorem c6_proxy_generation (token salt : Str) :
    (generateProxyToken token salt = generateProxyToken token salt) ∧
    (generateProxyToken token salt =
      "anon_".data ++ ((hashWithSalt token salt).take 16).filter isAlnumChar) ∧
    (((hashWithSalt token salt).take 16).filter isAlnumChar ≠ [] →
      matchesAnonFormat (generateProxyToken token salt) = true) := by
  refine ⟨rfl, rfl, fun hne => ?_⟩
  unfold matchesAnonFormat generateProxyToken
  simp only [Bool.and_eq_true]
  refine ⟨⟨?_, ?_⟩, ?_⟩
  · show ("anon_".data.isPrefixOf (['a', 'n', 'o', 'n', '_'] ++ _)) = true
    simp [List.isPrefixOf]
  · show decide (0 < ((['a', 'n', 'o', 'n', '_'] ++ _).drop 5).length) = true
    simp only [List.drop_append_of_le_length, List.drop_succ_cons, List.drop_zero,
      decide_eq_true_eq]
    show 0 < (((hashWithSalt token salt).take 16).filter isAlnumChar).length
    cases hfil : ((hashWithSalt token salt).take 16).filter isAlnumChar with
    | nil => exact absurd hfil hne
    | cons c cs => simp
  · show ((['a', 'n', 'o', 'n', '_'] ++ _).drop 5).all isAlnumChar = true
    simp only [List.drop_succ_cons, List.drop_zero, List.all_eq_true]
    intro c hc
    exact List.of_mem_filter hc

/-- C6 witness at a concrete token and salt (the hash slice is non-empty, as
computed by the kernel). -/
theorem c6_proxy_generation_witness :
    matchesAnonFormat (generateProxyToken "sk-1234567890abcdef".data "testsalt".data) = true :=
  (c6_proxy_generation "sk-1234567890abcdef".data "testsalt".data).2.2 (by decide)

theorem msLookup_msSet_self (m : List (Str × MappingData)) (k : Str) (v : MappingData) :
    msLookup (msSet m k v) k = some v := by
  induction m with
  | nil => simp [msSet, msLookup, List.find?]
  | cons p ps ih =>
      by_cases hk : p.1 = k
      · simp [msSet, List.any_cons, hk, msLookup, List.find?]
      · have hany : (p :: ps).any (fun q => q.1 = k) = ps.any (fun q => q.1 = k) := by
          simp [List.any_cons, hk]
        by_cases ha : ps.any (fun q => q.1 = k) = true
        · have hstep : msSet (p :: ps) k v = p :: msSet ps k v := by
            simp [msSet, hany, ha, hk]
          rw [hstep]
          have hfind : msLookup (p :: msSet ps k v) k = msLookup (msSet ps k v) k := by
            simp [msLookup, List.find?, hk]
          rw [hfind]; exact ih
        · have ha2 : ps.any (fun q => q.1 = k) = false := by
            exact Bool.not_eq_true _ ▸ eq_false_of_ne_true ha
          have hstep : msSet (p :: ps) k v = p :: msSet ps k v := by
            simp [msSet, hany, ha2, hk]
          rw [hstep]
          have hfind : msLookup (p :: msSet ps k v) k = msLookup (msSet ps k v) k := by
            simp [msLookup, List.find?, hk]
          rw [hfind]; exact ih

theorem msLookup_msDelete_self (m : List (Str × MappingData)) (k : Str) :
    msLookup (msDelete m k) k = none := by
  induction m with
  | nil => rfl
  | cons p ps ih =>
      by_cases hk : p.1 = k
      · have hstep : msDelete (p :: ps) k = msDelete ps k := by simp [msDelete, hk]
        rw [hstep]; exact ih
      · have hstep : msDelete (p :: ps) k = p :: msDelete ps k := by simp [msDelete, hk]
        rw [hstep]
        have hfind : msLookup (p :: msDelete ps k) k = msLookup (msDelete ps k) k := by
          simp [msLookup, List.find?, hk]
        rw [hfind]; exact ih

theorem any_tail_eq_false {m : List (Str × MappingData)} {k : Str}
    (h : m.any (fun p => p.1 = k) = false) : m.tail.any (fun p => p.1 = k) = false := by
  cases m with
  | nil => rfl
  | cons p ps => simp only [List.any_cons, Bool.or_eq_false_iff] at h; exact h.2

theorem msSet_of_not_mem {m : List (Str × MappingData)} {k : Str} (v : MappingData)
    (h : m.any (fun p => p.1 = k) = false) : msSet m k v = m ++ [(k, v)] := by
  simp [msSet, h]

/-- C7: in `MemoryStorage`, storing under a fresh id while the table holds
`maxSize` entries first evicts the oldest-inserted (first) entry; storing
under an already-present id never triggers eviction (the table length is
preserved); and concretely, storing three distinct new ids into a
capacity-2 store makes a retrieve of the first-inserted id return absent. -/
theorem c7_memory_eviction :
    (∀ (st : MemoryStorageState) (now : Int) (mapId : Str) (md : MappingData),
       mapId ≠ [] →
       st.mappings.any (fun p => p.1 = mapId) = false →
       st.mappings.length = st.maxSize →
       st.mappings ≠ [] →
       msStore st now mapId md =
         .ok { st with mappings :=
                 st.mappings.tail ++ [(mapId, { md with createdAt := now })] }) ∧
    (∀ (st : MemoryStorageState) (now : Int) (mapId : Str) (md : MappingData),
       mapId ≠ [] →
       st.mappings.any (fun p => p.1 = mapId) = true →
       msStore st now mapId md =
         .ok { st with mappings := msSet st.mappings mapId { md with createdAt := now } } ∧
       (msSet st.mappings mapId { md with createdAt := now }).length =
         st.mappings.length) ∧
    c7chain = .ok none := by
  refine ⟨?_, ?_, by decide⟩
  · intro st now mapId md hid hfresh hlen hne
    have hcond : (decide (st.maxSize ≤ st.mappings.length) &&
        !st.mappings.any fun p => decide (p.1 = mapId)) = true := by
      rw [hfresh, ← hlen]
      simp
    unfold msStore
    rw [if_neg hid, if_pos hcond]
    cases hm : st.mappings with
    | nil => exact absurd hm hne
    | cons p ps =>
        have htl : ps.any (fun q => q.1 = mapId) = false := by
          have h2 := any_tail_eq_false hfresh
          rwa [hm] at h2
        simp [msSet_of_not_mem _ htl]
  · intro st now mapId md hid hmem
    have hcond : (decide (st.maxSize ≤ st.mappings.length) &&
        !st.mappings.any fun p => decide (p.1 = mapId)) = false := by
      rw [hmem]
      simp
    constructor
    · unfold msStore
      rw [if_neg hid, if_neg (by rw [hcond]; simp)]
    · have hmap : msSet st.mappings mapId { md with createdAt := now } =
          st.mappings.map (fun p => if p.1 = mapId then (mapId, { md with createdAt := now }) else p) := by
        simp [msSet, hmem]
      rw [hmap, List.length_map]

/-- C7 witness: the general clauses applied to a concrete state. -/
theorem c7_memory_eviction_witness :
    msStore ⟨[("a".data, mdEx)], 1, 0⟩ 7 "b".data mdEx =
      .ok ⟨[("b".data, { mdEx with createdAt := 7 })], 1, 0⟩ ∧
    msStore ⟨[("a".data, mdEx)], 1, 0⟩ 7 "a".data mdEx =
      .ok ⟨[("a".data, { mdEx with createdAt := 7 })], 1, 0⟩ := by
  constructor
  · exact (c7_memory_eviction.1) ⟨[("a".data, mdEx)], 1, 0⟩ 7 "b".data mdEx
      (by decide) (by decide) (by decide) (by decide)
  · have h := ((c7_memory_eviction.2.1) ⟨[("a".data, mdEx)], 1, 0⟩ 7 "a".data mdEx
      (by decide) (by decide)).1
    rw [h]
    decide

/-- C8: `MemoryStorage.store` always stamps the stored entry with
`createdAt = now`, overwriting any caller-supplied timestamp; `retrieve` of
an id whose age `now - createdAt` exceeds a positive TTL returns absent and
eagerly removes the entry from the table; and concretely, with TTL 100 ms a
store at time 0 followed by a retrieve at time 150 returns absent and
leaves the table empty (the entry no longer counts toward capacity). -/
theorem c8_ttl_expiry :
    (∀ (st : MemoryStorageState) (now : Int) (mapId : Str) (md : MappingData)
       (st2 : MemoryStorageState),
       msStore st now mapId md = .ok st2 →
       msLookup st2.mappings mapId = some { md with createdAt := now }) ∧
    (∀ (st : MemoryStorageState) (now : Int) (mapId : Str) (md : MappingData),
       mapId ≠ [] →
       msLookup st.mappings mapId = some md →
       0 < st.ttlMs → st.ttlMs < now - md.createdAt →
       msRetrieve st now mapId =
         .ok (none, { st with mappings := msDelete st.mappings mapId }) ∧
       msLookup (msDelete st.mappings mapId) mapId = none) ∧
    c8chain = .ok (none, ⟨[], 10, 100⟩) := by
  refine ⟨?_, ?_, by decide⟩
  · intro st now mapId md st2 h
    by_cases hid : mapId = []
    · rw [msStore, if_pos hid] at h
      exact absurd h (by simp)
    · rw [msStore, if_neg hid] at h
      have h2 := Except.ok.inj h
      rw [← h2]
      exact msLookup_msSet_self _ _ _
  · intro st now mapId md hid hlook hpos hexp
    refine ⟨?_, msLookup_msDelete_self _ _⟩
    rw [msRetrieve, if_neg hid, hlook]
    simp [hpos, hexp]

/-- C8 witness: both clauses applied to a concrete state. -/
theorem c8_ttl_expiry_witness :
    msLookup [("a".data, { mdEx with createdAt := 0 })] "a".data =
      some { mdEx with createdAt := 0 } ∧
    msRetrieve ⟨[("a".data, { mdEx with createdAt := 0 })], 10, 100⟩ 150 "a".data =
      .ok (none, ⟨[], 10, 100⟩) := by
  constructor
  · exact c8_ttl_expiry.1 ⟨[], 10, 100⟩ 0 "a".data mdEx
      ⟨[("a".data, { mdEx with createdAt := 0 })], 10, 100⟩ (by decide)
  · have h := (c8_ttl_expiry.2.1 ⟨[("a".data, { mdEx with createdAt := 0 })], 10, 100⟩
      150 "a".data { mdEx with createdAt := 0 } (by decide) (by decide) (by decide)
      (by decide)).1
    rw [h]
    decide

/-- C10: when the engine is configured with `enableSignatures = false`, the
`signature` argument to `deanonymize` has no influence on the outcome (any
two signature values, including absent, give the same result), and the
stored mapping's `signature` field is never inspected (replacing it with
anything yields the same result). -/
theorem c10_signature_ignored_when_disabled (cfg : EngineConfig)
    (h : cfg.enableSignatures = false) (storage : List (Str × MappingData))
    (output mapId : Str) (s1 s2 : Option Str) :
    (engineDeanonymize cfg storage output mapId s1 =
      engineDeanonymize cfg storage output mapId s2) ∧
    (∀ (md : MappingData) (sigField : Option Str),
      engineDeanonymize cfg (msSet storage mapId { md with signature := sigField })
          output mapId s1 =
        engineDeanonymize cfg (msSet storage mapId md) output mapId s1) := by
  constructor
  · simp [engineDeanonymize, h]
  · intro md sigField
    simp [engineDeanonymize, h, msLookup_msSet_self]

/-- C10 witness at a concrete configuration, storage and signatures. -/
theorem c10_signature_ignored_witness :
    engineDeanonymize ⟨false, [], "hash_salt".data⟩ [("a".data, mdEx)] "out".data
        "a".data (some "s1".data) =
      engineDeanonymize ⟨false, [], "hash_salt".data⟩ [("a".data, mdEx)] "out".data
        "a".data none :=
  (c10_signature_ignored_when_disabled ⟨false, [], "hash_salt".data⟩ rfl
    [("a".data, mdEx)] "out".data "a".data (some "s1".data) none).1

theorem constantTimeCompare_ne {a b : Str} (h : a ≠ b) :
    constantTimeCompare a b = false := by
  cases hc : constantTimeCompare a b
  · rfl
  · exact absurd ((constantTimeCompare_eq_true_iff a b).mp hc) h

theorem deanonymizeGateNone (cfg : EngineConfig) (hsig : cfg.enableSignatures = true)
    (storage : List (Str × MappingData)) (output mapId : Str)
    (ho : output ≠ []) (hid : mapId ≠ []) (md : MappingData)
    (hlook : msLookup storage mapId = some md) :
    engineDeanonymize cfg storage output mapId none =
      .error (.signatureErr "Signature is required when signatures are enabled".data) := by
  unfold engineDeanonymize
  rw [if_neg ho, if_neg hid, hlook]
  simp only [hsig, if_true]

theorem deanonymizeGateMismatch (cfg : EngineConfig) (hsig : cfg.enableSignatures = true)
    (storage : List (Str × MappingData)) (output mapId : Str)
    (ho : output ≠ []) (hid : mapId ≠ []) (md : MappingData)
    (hlook : msLookup storage mapId = some md) (s stored : Str)
    (hstored : md.signature = some stored) (hne : s ≠ stored) :
    engineDeanonymize cfg storage output mapId (some s) =
      .error (.signatureErr "Invalid signature - mapping may have been tampered with".data) := by
  unfold engineDeanonymize
  rw [if_neg ho, if_neg hid, hlook]
  simp only [hsig, if_true, hstored]
  rw [constantTimeCompare_ne hne]
  simp

theorem deanonymizeGateVerifyFail (cfg : EngineConfig) (hsig : cfg.enableSignatures = true)
    (storage : List (Str × MappingData)) (output mapId : Str)
    (ho : output ≠ []) (hid : mapId ≠ []) (md : MappingData)
    (hlook : msLookup storage mapId = some md) (stored : Str)
    (hstored : md.signature = some stored)
    (hneq : createHmac (dataToSign mapId md.mappings) cfg.signatureSecret ≠ stored) :
    engineDeanonymize cfg storage output mapId (some stored) =
      .error (.signatureErr "Mapping data signature verification failed".data) := by
  unfold engineDeanonymize
  rw [if_neg ho, if_neg hid, hlook]
  simp only [hsig, if_true, hstored]
  rw [constantTimeCompare_self]
  have hvf : verifyHmac (dataToSign mapId md.mappings) stored cfg.signatureSecret = false :=
    constantTimeCompare_ne (fun h => hneq h.symm)
  rw [hvf]
  simp

theorem deanonymizeGatePass (cfg : EngineConfig) (hsig : cfg.enableSignatures = true)
    (storage : List (Str × MappingData)) (output mapId : Str)
    (ho : output ≠ []) (hid : mapId ≠ []) (md : MappingData)
    (hlook : msLookup storage mapId = some md) (stored : Str)
    (hstored : md.signature = some stored)
    (heq : createHmac (dataToSign mapId md.mappings) cfg.signatureSecret = stored) :
    ∃ t, engineDeanonymize cfg storage output mapId (some stored) = .ok t := by
  unfold engineDeanonymize
  rw [if_neg ho, if_neg hid, hlook]
  simp only [hsig, if_true, hstored]
  rw [constantTimeCompare_self]
  have hvf : verifyHmac (dataToSign mapId md.mappings) stored cfg.signatureSecret = true := by
    unfold verifyHmac
    rw [heq]
    exact constantTimeCompare_self _
  rw [hvf]
  by_cases hM : md.mappings = [] <;> simp [hM]

/-- C3 (amended to the mappings stored by the token-bearing path of
`anonymize`; the no-token path stores an unsigned mapping, refuted by the
counterexample): with signatures enabled, `deanonymize` fails with a
signature error whenever the caller signature is absent, or differs from
the signature returned by `anonymize`, or the stored mapping entries were
mutated in a way that changes their HMAC (the code's guarantee: mutations
are detected exactly when they change the recomputed HMAC over the
canonical payload); and `deanonymize` with the unmodified stored mapping
and the returned signature succeeds with no signature error. -/
theorem c3_tamper_detection (cfg : EngineConfig) (hsig : cfg.enableSignatures = true)
    (detectCfg : TokenDetectionConfig) (strategyFn : Str → Str)
    (storage : List (Str × MappingData)) (newMapId : Str) (now : Int) (prompt : Str)
    (res : AnonymizationResult) (storage2 : List (Str × MappingData))
    (hne : detectTokens detectCfg prompt ≠ [])
    (hid : newMapId ≠ [])
    (hr : engineAnonymize cfg detectCfg strategyFn storage newMapId now prompt =
      .ok (res, storage2))
    (output : Str) (ho : output ≠ []) :
    (∃ msg, engineDeanonymize cfg storage2 output res.mapId none =
      .error (.signatureErr msg)) ∧
    (∀ s, some s ≠ res.signature →
      ∃ msg, engineDeanonymize cfg storage2 output res.mapId (some s) =
        .error (.signatureErr msg)) ∧
    (∀ md m2, msLookup storage2 res.mapId = some md →
      createHmac (dataToSign res.mapId m2) cfg.signatureSecret ≠
        createHmac (dataToSign res.mapId md.mappings) cfg.signatureSecret →
      ∃ msg, engineDeanonymize cfg (msSet storage2 res.mapId { md with mappings := m2 })
          output res.mapId res.signature = .error (.signatureErr msg)) ∧
    (∃ t, engineDeanonymize cfg storage2 output res.mapId res.signature = .ok t) := by
  unfold engineAnonymize at hr
  split at hr
  · exact absurd hr (by simp)
  · rw [if_neg hne] at hr
    simp only [hsig, if_true] at hr
    generalize hpr : engineBuild strategyFn (detectTokens detectCfg prompt) prompt = pr at hr
    obtain ⟨mappingsM, anonP⟩ := pr
    rw [Except.ok.injEq, Prod.mk.injEq] at hr
    obtain ⟨hres, hst⟩ := hr
    subst hres
    subst hst
    dsimp only
    have hlook := msLookup_msSet_self storage newMapId
      { id := newMapId, mappings := mappingsM, createdAt := now,
        signature := some (createHmac (dataToSign newMapId mappingsM) cfg.signatureSecret),
        strategy := cfg.strategyTag }
    refine ⟨?_, ?_, ?_, ?_⟩
    · exact ⟨_, deanonymizeGateNone cfg hsig _ output newMapId ho hid _ hlook⟩
    · intro s hs
      have hsne : s ≠ createHmac (dataToSign newMapId mappingsM) cfg.signatureSecret := by
        intro hcontra
        exact hs (by rw [hcontra])
      exact ⟨_, deanonymizeGateMismatch cfg hsig _ output newMapId ho hid _ hlook s _ rfl hsne⟩
    · intro md m2 hmd hneq
      rw [hlook] at hmd
      have hmdeq := Option.some.inj hmd
      subst hmdeq
      refine ⟨_, deanonymizeGateVerifyFail cfg hsig _ output newMapId ho hid
        { id := newMapId, mappings := m2, createdAt := now,
          signature := some (createHmac (dataToSign newMapId mappingsM) cfg.signatureSecret),
          strategy := cfg.strategyTag }
        (msLookup_msSet_self _ _ _) _ rfl ?_⟩
      intro hcontra
      exact hneq hcontra
    · exact ⟨_, (deanonymizeGatePass cfg hsig _ output newMapId ho hid _ hlook _ rfl rfl).choose_spec⟩

/-- C1: on the spec's example input (default Hash+Salt configuration,
signatures off, salt and mapping id fixed to concrete values standing for
the random ones), `anonymize` does return an `anonPrompt` carrying two
`anon_...` proxies and containing neither sensitive substring — but the
detector records the `API_KEY` value as `"key: sk-1234567890a"` over the
span [4, 23) (the capture-group length applied at `match.index`), so
`deanonymize` of the two echoed proxies restores
`"key: sk-1234567890a user@example.com"`: the substring
`sk-1234567890abcdef` is NOT restored, contradicting the claim's round-trip
sentence. -/
theorem c1_roundtrip_code_bug :
    c1run = .ok (c1res, c1storage) ∧
    c1res.anonPrompt = "API ".data ++ c1proxyA ++ "bcdef, email: ".data ++ c1proxyE ∧
    matchesAnonFormat c1proxyA = true ∧
    matchesAnonFormat c1proxyE = true ∧
    containsSub c1res.anonPrompt "sk-1234567890abcdef".data = false ∧
    containsSub c1res.anonPrompt "user@example.com".data = false ∧
    engineDeanonymize c1cfg c1storage (c1proxyA ++ ' ' :: c1proxyE) c1res.mapId none =
      .ok ("key: sk-1234567890a user@example.com".data) ∧
    containsSub "key: sk-1234567890a user@example.com".data "user@example.com".data = true ∧
    containsSub "key: sk-1234567890a user@example.com".data "sk-1234567890abcdef".data
      = false := by
  refine ⟨by decide, by decide, by decide, by decide, by decide, by decide, by decide,
    by decide, by decide⟩

/-- C2: for a prompt with no detectable tokens, `anonymize` returns the
prompt unchanged, persists an empty mapping, and (with signatures enabled)
returns an HMAC over `id:prompt` — but it does NOT store that signature on
the persisted mapping, so the subsequent `deanonymize` with the returned
signature fails with `SignatureError("Stored mapping does not have a
signature")` instead of succeeding as a no-op, contradicting the claim
(and the repository's own tests). -/
theorem c2_no_token_signature_code_bug :
    detectTokens DEFAULT_DETECTION_CONFIG c2prompt = [] ∧
    c2run = .ok (c2res, c2storage) ∧
    c2res.anonPrompt = c2prompt ∧
    (msLookup c2storage c2res.mapId).map (fun md => md.mappings) = some [] ∧
    (msLookup c2storage c2res.mapId).map (fun md => md.signature) = some none ∧
    c2res.signature =
      some (createHmac ("mapid02".data ++ ':' :: c2prompt) "test-secret".data) ∧
    engineDeanonymize c2cfg c2storage "It is sunny and warm today.".data c2res.mapId
        c2res.signature =
      .error (.signatureErr "Stored mapping does not have a signature".data) := by
  refine ⟨by decide, by decide, by decide, by decide, by decide, by decide, by decide⟩

/-- C3 counterexample: a mapping stored by `anonymize` (the empty mapping of
the no-token path) for which `deanonymize` with the unmodified stored
mapping and the signature returned by `anonymize` DOES raise a signature
error — refuting the claim's "for every mapping stored by anonymize"
quantification. -/
theorem c3_counterexample :
    c2run = .ok (c2res, c2storage) ∧
    c2res.signature.isSome = true ∧
    (msLookup c2storage c2res.mapId).isSome = true ∧
    engineDeanonymize c2cfg c2storage "Some model output.".data c2res.mapId
        c2res.signature =
      .error (.signatureErr "Stored mapping does not have a signature".data) := by
  refine ⟨by decide, by decide, by decide, by decide⟩

/-- C3 witness: the amended tamper-detection theorem applied to a concrete
token-bearing anonymize run. -/
theorem c3_tamper_detection_witness :
    (∃ msg, engineDeanonymize c2cfg c3storage "Some model output!".data c3res.mapId none =
      .error (.signatureErr msg)) ∧
    (∃ t, engineDeanonymize c2cfg c3storage "Some model output!".data c3res.mapId
      c3res.signature = .ok t) := by
  have H := c3_tamper_detection c2cfg rfl DEFAULT_DETECTION_CONFIG exStrategy []
    "mapid03".data 0 exText c3res c3storage (by decide) (by decide) (by decide)
    "Some model output!".data (by decide)
  exact ⟨H.1, H.2.2.2⟩

/-- C5: on the example text the first returned token's value is
`"key: sk-1234567890a"` with span [4, 23), while the `API_KEY` pattern's
capturing group matched `"sk-1234567890abcdef"` at [9, 28) — the returned
value is NOT the capture-group text and the span does not point at the
group; the code instead re-reads the original text at `match.index` with
the group's length. -/
theorem c5_detected_value_code_bug :
    (detectTokens DEFAULT_DETECTION_CONFIG exText).head? =
      some ⟨"key: sk-1234567890a".data, "API_KEY".data, 4, 23, 95⟩ ∧
    findAll reApiKey (toLowerStr exText) = [⟨4, 28, some (9, 28)⟩] ∧
    sub (toLowerStr exText) 9 28 = "sk-1234567890abcdef".data ∧
    sub exText 4 23 = "key: sk-1234567890a".data ∧
    "key: sk-1234567890a".data ≠ "sk-1234567890abcdef".data := by
  refine ⟨by decide, by decide, by decide, by decide, by decide⟩

theorem tokOverlap_symm {a b : DetectedToken} (h : tokOverlap a b) : tokOverlap b a :=
  ⟨h.2, h.1⟩

/-- For well-formed tokens the source's three-disjunct overlap test decides
real span overlap. -/
theorem overlapB_iff {t e : DetectedToken} (ht : wfTok t) (he : wfTok e) :
    overlapB t e = true ↔ tokOverlap t e := by
  unfold wfTok at ht he
  simp only [overlapB, tokOverlap, Bool.or_eq_true, Bool.and_eq_true, decide_eq_true_eq]
  omega

theorem findIdx?_isSome_of_any {p : DetectedToken → Bool} {l : List DetectedToken}
    (h : l.any p = true) : (List.findIdx? p l).isSome := by
  induction l with
  | nil => simp at h
  | cons a rest ih =>
      rw [List.findIdx?_cons]
      by_cases hp : p a
      · simp [hp]
      · simp only [List.any_cons, Bool.or_eq_true] at h
        rcases h with h | h
        · exact absurd h hp
        · simp only [hp, Bool.false_eq_true, if_false]
          have := ih h
          simp [Option.isSome_map]
          simpa using this

/-- Peeling a non-overlapping head out of one deduplication step. -/
theorem dedupStep_cons_of_not_overlap {a : DetectedToken} {res : List DetectedToken}
    {tok : DetectedToken} (h : overlapB tok a = false) :
    dedupStep (a :: res) tok = a :: dedupStep res tok := by
  unfold dedupStep
  rw [List.any_cons, h, Bool.false_or, List.findIdx?_cons, h]
  by_cases ha : res.any (overlapB tok) = true
  · rw [ha]
    simp only [if_true, Bool.false_eq_true, if_false, List.findIdx?_succ]
    have hsome := findIdx?_isSome_of_any ha
    cases hfi : List.findIdx? (fun e => overlapB tok e) res with
    | none => rw [hfi] at hsome; simp at hsome
    | some i =>
        rw [show Option.map (fun j => j + 1) (some i) = some (i + 1) from rfl]
        dsimp only
        simp only [List.getD_cons_succ, List.set_cons_succ]
        split <;> rfl
  · have ha2 : res.any (overlapB tok) = false := by
      exact Bool.not_eq_true _ ▸ eq_false_of_ne_true ha
    rw [ha2]
    simp

/-- The step when the incoming token overlaps the head. -/
theorem dedupStep_cons_of_overlap {a : DetectedToken} {res : List DetectedToken}
    {tok : DetectedToken} (h : overlapB tok a = true) :
    dedupStep (a :: res) tok =
      if tok.confidence > a.confidence then tok :: res else a :: res := by
  unfold dedupStep
  rw [List.any_cons, h, Bool.true_or, List.findIdx?_cons, h]
  simp

theorem chainGap_mem {a : DetectedToken} {rest : List DetectedToken}
    (hinv : dedupInv (a :: rest)) : ∀ e ∈ rest, a.endIndex ≤ e.startIndex := by
  induction rest generalizing a with
  | nil => intro e he; simp at he
  | cons b rest2 ih =>
      intro e he
      have hab : a.endIndex ≤ b.startIndex := (List.chain'_cons.mp hinv.2).1
      rcases List.mem_cons.mp he with rfl | he2
      · exact hab
      · have hinv2 : dedupInv (b :: rest2) :=
          ⟨fun t ht => hinv.1 t (List.mem_cons_of_mem a ht),
           (List.chain'_cons.mp hinv.2).2⟩
        have hb : wfTok b :=
          hinv.1 b (List.mem_cons_of_mem a (List.mem_cons_self b rest2))
        have hbe := ih hinv2 e he2
        unfold wfTok at hb
        omega

theorem dedupInv_tail {a : DetectedToken} {rest : List DetectedToken}
    (hinv : dedupInv (a :: rest)) : dedupInv rest :=
  ⟨fun t ht => hinv.1 t (List.mem_cons_of_mem a ht), hinv.2.tail⟩

/-- The full behaviour of one deduplication step under the invariant. -/
theorem dedupStep_main (res : List DetectedToken) (tok : DetectedToken)
    (hinv : dedupInv res) (hwf : wfTok tok)
    (hstarts : ∀ e ∈ res, e.startIndex ≤ tok.startIndex) :
    dedupInv (dedupStep res tok) ∧
    (∀ e ∈ dedupStep res tok, e ∈ res ∨ e = tok) ∧
    (∀ e ∈ dedupStep res tok, e.startIndex ≤ tok.startIndex) ∧
    (∀ t ∈ res, (tokOverlap tok t → tok = t) → t ∈ dedupStep res tok) ∧
    ((∀ e ∈ res, ¬ tokOverlap tok e) → tok ∈ dedupStep res tok) := by
  induction res with
  | nil =>
      refine ⟨⟨?_, ?_⟩, ?_, ?_, ?_, ?_⟩ <;>
        simp [dedupStep, hwf, wfTok]
      exact hwf
  | cons a rest ih =>
      have hawf : wfTok a := hinv.1 a (List.mem_cons_self a rest)
      by_cases hov : overlapB tok a = true
      · -- the incoming token overlaps the head: the head must be the last
        -- accepted token (rest = []), by the separation invariant
        have hrest : rest = [] := by
          cases hr : rest with
          | nil => rfl
          | cons b rest2 =>
              exfalso
              have hreal : tokOverlap tok a := (overlapB_iff hwf hawf).mp hov
              have hge : a.endIndex ≤ b.startIndex := by
                have := chainGap_mem hinv
                exact this b (by rw [hr]; exact List.mem_cons_self b rest2)
              have hbs : b.startIndex ≤ tok.startIndex :=
                hstarts b (by rw [hr]; exact List.mem_cons_of_mem a (List.mem_cons_self b rest2))
              have : tok.startIndex < a.endIndex := hreal.1
              omega
        subst hrest
        rw [dedupStep_cons_of_overlap hov]
        by_cases hconf : tok.confidence > a.confidence
        · rw [if_pos hconf]
          refine ⟨⟨?_, ?_⟩, ?_, ?_, ?_, ?_⟩
          · intro t ht; rcases List.mem_singleton.mp ht with rfl; exact hwf
          · exact List.chain'_singleton tok
          · intro e he; rcases List.mem_singleton.mp he with rfl; exact Or.inr rfl
          · intro e he; rcases List.mem_singleton.mp he with rfl; exact le_refl _
          · intro t ht hsur
            rcases List.mem_singleton.mp ht with rfl
            have hreal : tokOverlap tok t := (overlapB_iff hwf hawf).mp hov
            have := hsur hreal
            subst this
            exact List.mem_singleton.mpr rfl
          · intro hno
            exact absurd ((overlapB_iff hwf hawf).mp hov)
              (hno a (List.mem_cons_self a []))
        · rw [if_neg hconf]
          refine ⟨⟨?_, ?_⟩, ?_, ?_, ?_, ?_⟩
          · intro t ht; rcases List.mem_singleton.mp ht with rfl; exact hawf
          · exact List.chain'_singleton a
          · intro e he; rcases List.mem_singleton.mp he with rfl; exact Or.inl (by simp)
          · intro e he; rcases List.mem_singleton.mp he with rfl
            exact hstarts e (List.mem_cons_self e [])
          · intro t ht hsur
            rcases List.mem_singleton.mp ht with rfl
            exact List.mem_singleton.mpr rfl
          · intro hno
            exact absurd ((overlapB_iff hwf hawf).mp hov)
              (hno a (List.mem_cons_self a []))
      · -- no overlap with the head: it is kept and the step recurses
        have hov2 : overlapB tok a = false := by
          exact Bool.not_eq_true _ ▸ eq_false_of_ne_true hov
        rw [dedupStep_cons_of_not_overlap hov2]
        have hinv2 : dedupInv rest := dedupInv_tail hinv
        have hstarts2 : ∀ e ∈ rest, e.startIndex ≤ tok.startIndex :=
          fun e he => hstarts e (List.mem_cons_of_mem a he)
        obtain ⟨ihInv, ihMem, ihStart, ihSurv, ihApp⟩ := ih hinv2 hstarts2
        have hagap : a.endIndex ≤ tok.startIndex := by
          have hnreal : ¬ tokOverlap tok a := fun hcon =>
            (by rw [(overlapB_iff hwf hawf).mpr hcon] at hov2; exact absurd hov2 (by simp))
          have has : a.startIndex ≤ tok.startIndex := hstarts a (List.mem_cons_self a rest)
          unfold tokOverlap at hnreal
          unfold wfTok at hwf hawf
          omega
        have hgapAll : ∀ e ∈ dedupStep rest tok, a.endIndex ≤ e.startIndex := by
          intro e he
          rcases ihMem e he with hmem | rfl
          · exact chainGap_mem hinv e hmem
          · exact hagap
        refine ⟨⟨?_, ?_⟩, ?_, ?_, ?_, ?_⟩
        · intro t ht
          rcases List.mem_cons.mp ht with rfl | ht2
          · exact hawf
          · exact ihInv.1 t ht2
        · rw [List.chain'_cons']
          refine ⟨?_, ihInv.2⟩
          intro y hy
          exact hgapAll y (List.mem_of_mem_head? hy)
        · intro e he
          rcases List.mem_cons.mp he with rfl | he2
          · exact Or.inl (List.mem_cons_self e rest)
          · rcases ihMem e he2 with hmem | rfl
            · exact Or.inl (List.mem_cons_of_mem a hmem)
            · exact Or.inr rfl
        · intro e he
          rcases List.mem_cons.mp he with rfl | he2
          · exact hstarts e (List.mem_cons_self e rest)
          · exact ihStart e he2
        · intro t ht hsur
          rcases List.mem_cons.mp ht with rfl | ht2
          · exact List.mem_cons_self t _
          · exact List.mem_cons_of_mem a (ihSurv t ht2 hsur)
        · intro hno
          exact List.mem_cons_of_mem a
            (ihApp fun e he => hno e (List.mem_cons_of_mem a he))

theorem chainGap_pairwise {l : List DetectedToken} (hinv : dedupInv l) :
    l.Pairwise (fun a b => a.endIndex ≤ b.startIndex) := by
  induction l with
  | nil => exact List.Pairwise.nil
  | cons a rest ih =>
      exact List.Pairwise.cons (chainGap_mem hinv) (ih (dedupInv_tail hinv))

/-- Folding the deduplication step over a start-sorted list of well-formed
tokens preserves the separation invariant, and keeps every token that
overlaps no other token of `all`. -/
theorem dedupFold_main (all : List DetectedToken) :
    ∀ (l res : List DetectedToken),
    dedupInv res →
    (∀ e ∈ res, ∀ u ∈ l, e.startIndex ≤ u.startIndex) →
    (∀ e ∈ res, e ∈ all) →
    (∀ u ∈ l, u ∈ all) →
    l.Pairwise (fun a b => a.startIndex ≤ b.startIndex) →
    (∀ u ∈ l, wfTok u) →
    dedupInv (l.foldl dedupStep res) ∧
    (∀ t, (t ∈ res ∨ t ∈ l) →
      (∀ u ∈ all, u ≠ t → ¬ tokOverlap u t) →
      t ∈ l.foldl dedupStep res) := by
  intro l
  induction l with
  | nil =>
      intro res hinv _ _ _ _ _
      refine ⟨hinv, ?_⟩
      intro t ht _
      rcases ht with ht | ht
      · exact ht
      · simp at ht
  | cons u l2 ih =>
      intro res hinv hstarts hresall hlall hpw hwf
      have hwu : wfTok u := hwf u (List.mem_cons_self u l2)
      have hstartsu : ∀ e ∈ res, e.startIndex ≤ u.startIndex :=
        fun e he => hstarts e he u (List.mem_cons_self u l2)
      obtain ⟨inv2, mem2, start2, surv2, app2⟩ := dedupStep_main res u hinv hwu hstartsu
      have hrel : ∀ v ∈ l2, u.startIndex ≤ v.startIndex :=
        fun v hv => (List.pairwise_cons.mp hpw).1 v hv
      have hstarts2 : ∀ e ∈ dedupStep res u, ∀ v ∈ l2, e.startIndex ≤ v.startIndex := by
        intro e he v hv
        rcases mem2 e he with hmem | rfl
        · exact hstarts e hmem v (List.mem_cons_of_mem u hv)
        · exact hrel v hv
      have hresall2 : ∀ e ∈ dedupStep res u, e ∈ all := by
        intro e he
        rcases mem2 e he with hmem | rfl
        · exact hresall e hmem
        · exact hlall e (List.mem_cons_self e l2)
      have hlall2 : ∀ v ∈ l2, v ∈ all :=
        fun v hv => hlall v (List.mem_cons_of_mem u hv)
      have hpw2 := (List.pairwise_cons.mp hpw).2
      have hwf2 : ∀ v ∈ l2, wfTok v :=
        fun v hv => hwf v (List.mem_cons_of_mem u hv)
      obtain ⟨ihInv, ihKeep⟩ :=
        ih (dedupStep res u) inv2 hstarts2 hresall2 hlall2 hpw2 hwf2
      rw [List.foldl_cons]
      refine ⟨ihInv, ?_⟩
      intro t ht huntouched
      have hstep : t ∈ dedupStep res u ∨ t ∈ l2 := by
        rcases ht with htres | htcons
        · left
          refine surv2 t htres ?_
          intro hovl
          by_contra hne
          exact huntouched u (hlall u (List.mem_cons_self u l2)) hne hovl
        · rcases List.mem_cons.mp htcons with rfl | htl2
          · by_cases htres : t ∈ res
            · left
              refine surv2 t htres ?_
              intro _
              rfl
            · left
              refine app2 ?_
              intro e he hovl
              have hent : e ≠ t := fun hcontra => htres (hcontra ▸ he)
              exact huntouched e (hresall e he) hent (tokOverlap_symm hovl)
          · right
            exact htl2
      exact ihKeep t hstep huntouched

theorem tokenOfMatch_core_wf {cfg : TokenDetectionConfig} {text name : Str}
    {i : Nat} {value : Str} {t : DetectedToken} (hmin : 1 ≤ cfg.minLength)
    (h : (if value.length < cfg.minLength then none
          else if cfg.exclusions.contains (toLowerStr value) then none
          else some ({ value := if cfg.caseSensitive then value
                          else sub text i (i + value.length),
                       type := name, startIndex := i, endIndex := i + value.length,
                       confidence := calculateConfidence name value } :
                     DetectedToken)) = some t) :
    wfTok t := by
  split at h
  · exact Option.noConfusion h
  · split at h
    · exact Option.noConfusion h
    · cases h
      unfold wfTok
      simp only
      omega

theorem tokenOfMatch_wf {cfg : TokenDetectionConfig} {text processed : Str}
    {name : Str} {m : RawMatch} {t : DetectedToken} (hmin : 1 ≤ cfg.minLength)
    (h : tokenOfMatch cfg text processed name m = some t) : wfTok t := by
  unfold tokenOfMatch at h
  rcases hm : m.cap with _ | ⟨s, e⟩
  · rw [hm] at h
    dsimp only at h
    exact tokenOfMatch_core_wf hmin h
  · rw [hm] at h
    dsimp only at h
    by_cases hse : s < e
    · rw [if_pos hse] at h
      exact tokenOfMatch_core_wf hmin h
    · rw [if_neg hse] at h
      exact tokenOfMatch_core_wf hmin h

theorem tokenOfCustomMatch_wf {cfg : TokenDetectionConfig} {text processed : Str}
    {m : RawMatch} {t : DetectedToken} (hmin : 1 ≤ cfg.minLength)
    (h : tokenOfCustomMatch cfg text processed m = some t) : wfTok t := by
  unfold tokenOfCustomMatch at h
  dsimp only at h
  by_cases hlen : cfg.minLength ≤ (sub processed m.index m.endIdx).length
  · rw [if_pos hlen] at h
    cases h
    unfold wfTok
    simp only
    omega
  · rw [if_neg hlen] at h
    exact Option.noConfusion h

/-- Every candidate produced under a positive minimum length has a
non-empty span. -/
theorem detectCandidates_wf {cfg : TokenDetectionConfig} (hmin : 1 ≤ cfg.minLength)
    (text : Str) : ∀ t ∈ detectCandidates cfg text, wfTok t := by
  intro t ht
  unfold detectCandidates at ht
  rcases List.mem_append.mp ht with hb | hc
  · obtain ⟨name, _, hf⟩ := List.mem_flatMap.mp hb
    rcases hlk : TOKEN_PATTERNS.lookup name with _ | re
    · rw [hlk] at hf
      simp at hf
    · rw [hlk] at hf
      obtain ⟨m, _, hsome⟩ := List.mem_filterMap.mp hf
      exact tokenOfMatch_wf hmin hsome
  · obtain ⟨re, _, hf⟩ := List.mem_flatMap.mp hc
    obtain ⟨m, _, hsome⟩ := List.mem_filterMap.mp hf
    exact tokenOfCustomMatch_wf hmin hsome

/-- C4 (amended): for every text and every configuration with a positive
minimum token length, the sequence returned by `detectTokens` is sorted by
start index with pairwise non-overlapping spans (consecutive spans satisfy
`endIndex ≤ startIndex`), every returned token is well-formed, and every
candidate detection that overlaps no other candidate is kept.  (The original
claim's global "of two overlapping candidates the higher-confidence one is
kept" fails on chains — see the counterexample — the resolution is greedy.) -/
theorem c4_detect_nonoverlap (cfg : TokenDetectionConfig) (hmin : 1 ≤ cfg.minLength)
    (text : Str) :
    ((detectTokens cfg text).Pairwise fun a b => a.endIndex ≤ b.startIndex) ∧
    (∀ t ∈ detectTokens cfg text, wfTok t) ∧
    (∀ t ∈ detectCandidates cfg text,
      (∀ u ∈ detectCandidates cfg text, u ≠ t → ¬ tokOverlap t u) →
      t ∈ detectTokens cfg text) := by
  have hwfall := detectCandidates_wf hmin text
  have hsorted : (List.insertionSort (fun a b => a.startIndex ≤ b.startIndex)
      (detectCandidates cfg text)).Pairwise (fun a b => a.startIndex ≤ b.startIndex) :=
    List.sorted_insertionSort _ _
  obtain ⟨hinv, hkeep⟩ := dedupFold_main
    (List.insertionSort (fun a b => a.startIndex ≤ b.startIndex) (detectCandidates cfg text))
    (List.insertionSort (fun a b => a.startIndex ≤ b.startIndex) (detectCandidates cfg text))
    [] ⟨by simp, List.chain'_nil⟩ (by simp) (by simp) (fun u hu => hu) hsorted
    (fun u hu => hwfall u ((List.mem_insertionSort _).mp hu))
  have hdt : detectTokens cfg text =
      (List.insertionSort (fun a b => a.startIndex ≤ b.startIndex)
        (detectCandidates cfg text)).foldl dedupStep [] := rfl
  refine ⟨?_, ?_, ?_⟩
  · rw [hdt]
    exact chainGap_pairwise hinv
  · intro t ht
    rw [hdt] at ht
    rcases (dedupFold_main _ _ [] ⟨by simp, List.chain'_nil⟩ (by simp) (by simp)
      (fun u hu => hu) hsorted
      (fun u hu => hwfall u ((List.mem_insertionSort _).mp hu))).1.1 t ht with hw
    exact hw
  · intro t ht huntouched
    rw [hdt]
    refine hkeep t (Or.inr ((List.mem_insertionSort _).mpr ht)) ?_
    intro u hu hne
    intro hovl
    exact huntouched u ((List.mem_insertionSort _).mp hu) hne (tokOverlap_symm hovl)

/-- C4 counterexample: two candidate detections overlap (the custom match
`[0, 8)` at confidence 0.70 and the `API_KEY` match `[5, 49)` at confidence
0.85), the higher-confidence one wins that comparison, yet it is *not* kept:
a later overlapping `UUID` candidate at confidence 0.90 replaces it, so the
claim's "the one with higher confidence is kept" fails on chains of
overlaps. -/
theorem c4_counterexample :
    c4custTok ∈ detectCandidates c4cfg c4text ∧
    c4apiTok ∈ detectCandidates c4cfg c4text ∧
    tokOverlap c4custTok c4apiTok ∧
    c4apiTok.confidence > c4custTok.confidence ∧
    c4apiTok ∉ detectTokens c4cfg c4text ∧
    detectTokens c4cfg c4text =
      [⟨"11111111-2222-3333-4444-555555555555".data, "UUID".data, 17, 53, 90⟩] := by
  refine ⟨by decide, by decide, by decide, by decide, by decide, by decide⟩

/-- C4 witness: the amended invariant theorem at the default configuration
and the example text. -/
theorem c4_detect_nonoverlap_witness :
    ((detectTokens DEFAULT_DETECTION_CONFIG
        "API key: sk-1234567890abcdef, email: user@example.com".data).Pairwise
      fun a b => a.endIndex ≤ b.startIndex) ∧
    (∀ t ∈ detectTokens DEFAULT_DETECTION_CONFIG
        "API key: sk-1234567890abcdef, email: user@example.com".data, wfTok t) :=
  ⟨(c4_detect_nonoverlap DEFAULT_DETECTION_CONFIG (by decide)
      "API key: sk-1234567890abcdef, email: user@example.com".data).1,
   (c4_detect_nonoverlap DEFAULT_DETECTION_CONFIG (by decide)
      "API key: sk-1234567890abcdef, email: user@example.com".data).2.1⟩

end AnonProxy
